import Mathlib

/-
Verification development for the Checkmk inventory display-hint subsystem.

The repository fragment ships only the unit tests of the resolution engine
(`tests/unit/cmk/gui/views/inventory/test_display_hints.py`); the engine
itself (`cmk/gui/views/inventory/_display_hints.py`, `cmk.gui.inventory`,
and the raw hint registry) is not part of the fragment.  The definitions
below are therefore modelled from the specification (spec.md §3, §4, §6),
with every concrete behaviour cross-checked against the expected values
recorded in the shipped unit tests.
-/

set_option maxRecDepth 8000

/-- Modelled from the spec: the discriminator of an `InventoryPath`,
marking whether the terminal element denotes a plain node, a table, or an
attributes (leaf key) reference (spec.md §3, "InventoryPath"). -/
inductive TreeSource
  | node
  | table
  | attributes
deriving DecidableEq

/-- Modelled from the spec: canonical representation of a hierarchical
inventory location — an ordered sequence of node names, a context
discriminator, and an optional trailing column/attribute key
(spec.md §3, "InventoryPath"). -/
structure InventoryPath where
  path : List String
  source : TreeSource
  key : Option String
deriving DecidableEq

/-- Split a character list on a separator character, keeping empty chunks
(the character-level analogue of Python's `str.split`). -/
def splitCharList (sep : Char) : List Char → List (List Char)
  | [] => [[]]
  | c :: cs =>
    if c = sep then [] :: splitCharList sep cs
    else
      match splitCharList sep cs with
      | [] => [[c]]
      | r :: rs => (c :: r) :: rs

/-- Nonempty components of a dot-separated path string; empty components
(leading/trailing separators) are dropped, per the "unresolvable
components are dropped" robustness rule of spec.md §7. -/
def splitPathComponents (s : String) : List String :=
  ((splitCharList '.' s.data).map (fun cs => String.mk cs)).filter (fun c => decide (c ≠ ""))

/-- Modelled from the spec: `InventoryPath.parse` (spec.md §4.1, §6).
A raw path ending in `:` (optionally followed by `*.key`) is a table
reference; one ending in `.` is a node reference; otherwise the final
component is an attribute key.  The `*` segment of `.a.b:*.k` is stripped
and `k` becomes the `key` field.  Parsing never fails; malformed input
degrades to a best-effort path. -/
def InventoryPath.parse (raw : String) : InventoryPath :=
  match (splitCharList ':' raw.data).map (fun cs => String.mk cs) with
  | [nodePart, keyPart] =>
    (match splitPathComponents keyPart with
     | ["*", k] => ⟨splitPathComponents nodePart, .table, some k⟩
     | _ => ⟨splitPathComponents nodePart, .table, none⟩)
  | [nodePart] =>
    if nodePart.data.getLast? = some '.' then
      ⟨splitPathComponents nodePart, .node, none⟩
    else
      (match (splitPathComponents nodePart).reverse with
       | [] => ⟨[], .node, none⟩
       | k :: rest => ⟨rest.reverse, .attributes, some k⟩)
  | _ => ⟨[], .node, none⟩

/-- Modelled from the spec: a raw hint declaration — a loosely-typed record
with optional `title`, `short` title, `icon`, `keyorder`, per-key
`data_type` / `paint_function` / `sort_function` / `filter_class`,
`is_show_more` and `view` fields (spec.md §3, "RawHint"). -/
structure RawHint where
  title : Option String := none
  short : Option String := none
  icon : Option String := none
  keyorder : List String := []
  dataType : Option String := none
  paintName : Option String := none
  sortName : Option String := none
  filterName : Option String := none
  isShowMore : Option Bool := none
  view : Option String := none
deriving DecidableEq

/-- The raw hint store: an insertion-ordered mapping from raw textual
paths to raw hint declarations (spec.md §3). -/
abbrev RawHintStore : Type := List (String × RawHint)

/-- First-match association lookup (the shallow embedding of a Python
dict lookup over an insertion-ordered association list). -/
def assocFind {κ τ : Type} [DecidableEq κ] : List (κ × τ) → κ → Option τ
  | [], _ => none
  | (k, v) :: rest, k' => if k = k' then some v else assocFind rest k'

/-- Whether a key is bound in an association list. -/
def containsKey {κ τ : Type} [DecidableEq κ] (l : List (κ × τ)) (k : κ) : Bool :=
  (assocFind l k).isSome

/-- Bind a key in an association list: overwrite in place when present
(keeping the original position, as a Python dict does), append otherwise. -/
def setAssoc {κ τ : Type} [DecidableEq κ] : List (κ × τ) → κ → τ → List (κ × τ)
  | [], k, v => [(k, v)]
  | (k', v') :: rest, k, v =>
    if k' = k then (k', v) :: rest else (k', v') :: setAssoc rest k v

/-- Modelled from the spec: the grouped raw hints for one path — the raw
hint for the node itself, the raw hint for the table at that path, and the
per-key raw hints for attributes (`byKey`) and table columns (`byColumn`)
(spec.md §4.2, "RelatedRawHints"). -/
structure RelatedRawHints where
  forNode : Option RawHint := none
  forTable : Option RawHint := none
  byKey : List (String × RawHint) := []
  byColumn : List (String × RawHint) := []
deriving DecidableEq

/-- The grouped record with no hints at all. -/
def emptyRelated : RelatedRawHints := {}

/-- The mapping produced by `get_related_raw_hints`: an insertion-ordered
association list from paths to grouped raw hints. -/
abbrev RelMap : Type := List (List String × RelatedRawHints)

/-- Ensure a path has an entry in the related-hints mapping, creating an
empty one at the end when absent (spec.md §4.2: "for each strict prefix of
that path, ensuring an entry exists"). -/
def ensureAt (m : RelMap) (p : List String) : RelMap :=
  if containsKey m p then m else m ++ [(p, emptyRelated)]

/-- Ensure entries for every strict prefix of a path (including the root). -/
def ensureAll (m : RelMap) (p : List String) : RelMap :=
  (List.range p.length).foldl (fun m i => ensureAt m (p.take i)) m

/-- Update the entry of a path in the related-hints mapping, inserting a
fresh entry at the end when the path is not yet bound. -/
def setAt (m : RelMap) (p : List String) (f : RelatedRawHints → RelatedRawHints) : RelMap :=
  match m with
  | [] => [(p, f emptyRelated)]
  | (q, r) :: rest => if q = p then (q, f r) :: rest else (q, r) :: setAt rest p f

/-- Place one parsed raw hint into the grouped record of its path: per-key
table hints go to `byColumn`, per-key attribute hints to `byKey`, keyless
table hints to `forTable`, and keyless node hints to `forNode`
(spec.md §4.2). -/
def placeHint (r : RelatedRawHints) (ip : InventoryPath) (h : RawHint) : RelatedRawHints :=
  match ip.key, ip.source with
  | some k, .table => { r with byColumn := setAssoc r.byColumn k h }
  | some k, _ => { r with byKey := setAssoc r.byKey k h }
  | none, .table => { r with forTable := some h }
  | none, _ => { r with forNode := some h }

/-- Process one registered raw hint: ensure entries for all strict
prefixes of its parsed path, then place the hint at its path. -/
def addRawHint (m : RelMap) (e : String × RawHint) : RelMap :=
  let ip := InventoryPath.parse e.1
  setAt (ensureAll m ip.path) ip.path (fun r => placeHint r ip e.2)

/-- Modelled from the spec: `_get_related_raw_hints` — walk every
registered raw path in registration order, group the node/table/per-key
raw hints per path, and ensure an entry for each strict prefix of every
registered path (spec.md §4.2). -/
def get_related_raw_hints (store : RawHintStore) : RelMap :=
  store.foldl addRawHint []

/-- Title-case one word: first character uppercased, rest lowercased
(the behaviour of Python's `str.title` on a single word). -/
def titleCaseWord (w : String) : String :=
  match w.data with
  | [] => ""
  | c :: cs => String.mk (c.toUpper :: cs.map Char.toLower)

/-- Modelled from the spec: derive a default title by humanizing a path
component or key — replace separators (`_`) with spaces and apply
title-casing (spec.md §4.3 step 2, §4.5). -/
def humanizeTitle (s : String) : String :=
  String.intercalate " " (((splitCharList '_' s.data).map (fun cs => String.mk cs)).map titleCaseWord)

/-- Modelled from the spec: join a parent title and an own title with the
fixed separator, omitting the separator when the parent part is empty
(spec.md §4.3 step 2, §4.5). -/
def makeLongTitle (parentTitle title : String) : String :=
  if parentTitle = "" then title else parentTitle ++ " ➤ " ++ title

/-- Whether a string ends with a given suffix (character-list version,
so that concrete instances evaluate by kernel reduction). -/
def strEndsWith (s suf : String) : Bool :=
  decide (s.data.reverse.take suf.data.length = suf.data.reverse)

/-- Whether a string starts with a given stem (character-list version). -/
def strStartsWith (s stem : String) : Bool :=
  decide (s.data.take stem.data.length = stem.data)

/-- Drop the final `n` characters of a string (character-list version). -/
def strDropRight (s : String) (n : Nat) : String :=
  String.mk (s.data.take (s.data.length - n))

/-- Modelled from the spec: `_parse_view_name` — empty or absent input
yields the empty string; otherwise strip a trailing `_of_host` suffix if
present and ensure the `inv` prefix is present exactly once
(spec.md §4.4). -/
def parse_view_name (viewName : Option String) : String :=
  match viewName with
  | none => ""
  | some s =>
    if s = "" then ""
    else
      let s := if strEndsWith s "_of_host" then strDropRight s 8 else s
      if strStartsWith s "inv" then s else "inv" ++ s

/-- Modelled from the spec: `_cmp_inv_generic` — a total order over
optionally-absent values: both absent compare equal, an absent value
sorts before any present value, and two present values compare by the
standard relational order (spec.md §4.6). -/
def cmp_inv_generic : Option Int → Option Int → Int
  | none, none => 0
  | none, some _ => -1
  | some _, none => 1
  | some a, some b => if a < b then -1 else if b < a then 1 else 0

/-- Modelled from the spec: `_decorate_sort_function` — wrap a comparator
so that it tolerates an extra "context" argument, which is ignored
(spec.md §4.6; the error-swallowing part of the decorator has no
counterpart in a pure embedding). -/
def decorate_sort_function {α : Type} (f : Option Int → Option Int → Int)
    (a b : Option Int) (_ctx : α) : Int :=
  f a b

/-- Modelled from the spec: complete a declared keyorder with the keys
referenced by per-key hints but not listed, appended at the end,
order-preserving, duplicates removed (spec.md §4.3 steps 4 and 5). -/
def completeKeyOrder (keyorder additional : List String) : List String :=
  additional.foldl (fun acc k => if k ∈ acc then acc else acc ++ [k]) keyorder

/-- First-seen deduplication of a list of keys: keep the first occurrence
of every key, drop later repetitions. -/
def dedupFirst : List String → List String
  | [] => []
  | x :: xs => x :: dedupFirst (xs.filter (fun y => !decide (y = x)))
termination_by l => l.length
decreasing_by
  simp only [List.length_cons]
  exact Nat.lt_succ_of_le (List.length_filter_le _ _)

/-- Modelled from the spec: the fixed data-type → paint-function table,
with the generic stringifying paint function as fallback
(spec.md §4.5, §9; function values are embedded by registry name). -/
def paintOfDataType (dt : String) : String :=
  if dt = "size" then "inv_paint_size"
  else if dt = "number" then "inv_paint_number"
  else "inv_paint_generic"

/-- Modelled from the spec: resolved per-key rendering metadata for a
table column (spec.md §3, "ColumnDisplayHint"; the paint, sort and filter
functions are embedded by registry name, and every sort name is consumed
under `decorate_sort_function`). -/
structure ColumnDisplayHint where
  viewName : String
  key : String
  title : String
  shortTitle : String
  longTitle : String
  paintFunction : String
  sortFunction : String
  filterClass : String
deriving DecidableEq

/-- Modelled from the spec: resolved per-key rendering metadata for a node
attribute (spec.md §3, "AttributeDisplayHint"). -/
structure AttributeDisplayHint where
  path : List String
  key : String
  title : String
  shortTitle : String
  longTitle : String
  dataType : String
  paintFunction : String
  sortFunction : String
  filterClass : String
  isShowMore : Bool
deriving DecidableEq

/-- Modelled from the spec: the resolved table hint of a node path
(spec.md §3, "TableDisplayHint"). -/
structure TableDisplayHint where
  path : List String
  title : String
  longTitle : String
  icon : String
  isShowMore : Bool
  viewName : String
  byColumn : List (String × ColumnDisplayHint)
deriving DecidableEq

/-- Modelled from the spec: the resolved hint of one node path
(spec.md §3, "NodeDisplayHint"). -/
structure NodeDisplayHint where
  path : List String
  icon : String
  title : String
  shortTitle : String
  longTitle : String
  attributes : List (String × AttributeDisplayHint)
  tableHint : TableDisplayHint
deriving DecidableEq

/-- The grouped raw hints registered at a path, or the empty record when
the path is unregistered (spec.md §7: a missing raw hint is not an
error). -/
def lookupRelated (store : RawHintStore) (p : List String) : RelatedRawHints :=
  (assocFind (get_related_raw_hints store) p).getD emptyRelated

/-- The title declared at a path by its node raw hint or, failing that,
its table raw hint. -/
def declaredTitle (r : RelatedRawHints) : Option String :=
  (r.forNode.bind (fun h => h.title)).orElse (fun _ => r.forTable.bind (fun h => h.title))

/-- The icon declared at a path by its node raw hint or, failing that,
its table raw hint; empty when absent. -/
def declaredIcon (r : RelatedRawHints) : String :=
  ((r.forNode.bind (fun h => h.icon)).orElse (fun _ => r.forTable.bind (fun h => h.icon))).getD ""

/-- Modelled from the spec: the base title of a path — the declared title
if the raw hint supplies one, else the humanized last path component; the
root path has an empty base title (spec.md §4.3 step 2; the shipped unit
tests pin the root's table title to the empty string). -/
def baseTitle (store : RawHintStore) (p : List String) : String :=
  if p = [] then ""
  else (declaredTitle (lookupRelated store p)).getD (humanizeTitle (p.getLast?.getD ""))

/-- Modelled from the spec: the resolved (short) title of a node — the
root path is titled "Inventory Tree", every other path carries its base
title (spec.md §4.3 step 2). -/
def nodeTitle (store : RawHintStore) (p : List String) : String :=
  if p = [] then "Inventory Tree" else baseTitle store p

/-- Modelled from the spec, corrected against the shipped unit tests: the
long title of a node joins the parent's base title (empty for the root
parent) with the node's own title (test_display_hints.py lines 150-315:
the long title of `("hardware",)` is "Hardware" and the long title of
`("path", "to", "node")` is "To ➤ Node"). -/
def nodeLongTitle (store : RawHintStore) (p : List String) : String :=
  makeLongTitle (baseTitle store p.dropLast) (nodeTitle store p)

/-- Modelled from the spec: `get_column_hint` — resolve one table column,
falling back to a humanized title, the data-type paint table, the generic
comparator and the generic text filter when the per-key raw hint or its
fields are absent (spec.md §4.3 step 5, §4.5). -/
def get_column_hint (store : RawHintStore) (p : List String) (k : String) : ColumnDisplayHint :=
  let r := lookupRelated store p
  let raw := assocFind r.byColumn k
  let title := (raw.bind (fun h => h.title)).getD (humanizeTitle k)
  { viewName := parse_view_name (r.forTable.bind (fun h => h.view))
    key := k
    title := title
    shortTitle := (raw.bind (fun h => h.short)).getD title
    longTitle := makeLongTitle (baseTitle store p) title
    paintFunction :=
      (raw.bind (fun h => h.paintName)).getD (paintOfDataType ((raw.bind (fun h => h.dataType)).getD "str"))
    sortFunction := (raw.bind (fun h => h.sortName)).getD "_cmp_inv_generic"
    filterClass := (raw.bind (fun h => h.filterName)).getD "FilterInvtableText" }

/-- Modelled from the spec: `get_attribute_hint` — resolve one node
attribute with the same fallback rules as columns (spec.md §4.3 step 4,
§4.5). -/
def get_attribute_hint (store : RawHintStore) (p : List String) (k : String) : AttributeDisplayHint :=
  let r := lookupRelated store p
  let raw := assocFind r.byKey k
  let title := (raw.bind (fun h => h.title)).getD (humanizeTitle k)
  { path := p
    key := k
    title := title
    shortTitle := (raw.bind (fun h => h.short)).getD title
    longTitle := makeLongTitle (baseTitle store p) title
    dataType := (raw.bind (fun h => h.dataType)).getD "str"
    paintFunction :=
      (raw.bind (fun h => h.paintName)).getD (paintOfDataType ((raw.bind (fun h => h.dataType)).getD "str"))
    sortFunction := (raw.bind (fun h => h.sortName)).getD "_cmp_inv_generic"
    filterClass := (raw.bind (fun h => h.filterName)).getD "FilterInvtableText"
    isShowMore := (raw.bind (fun h => h.isShowMore)).getD true }

/-- Modelled from the spec: `get_node_hint` — resolve the node hint of a
path from the grouped raw hints: titles per §4.3 step 2, the table
sub-hint per step 3, the attribute sub-hints in completed keyorder order
per step 4, and the column sub-hints per step 5.  Resolution is total: an
unregistered path yields the derived defaults (spec.md §7). -/
def get_node_hint (store : RawHintStore) (p : List String) : NodeDisplayHint :=
  let r := lookupRelated store p
  { path := p
    icon := declaredIcon r
    title := nodeTitle store p
    shortTitle := nodeTitle store p
    longTitle := nodeLongTitle store p
    attributes :=
      (completeKeyOrder ((r.forNode.map (fun h => h.keyorder)).getD []) (r.byKey.map (fun e => e.1))).map
        (fun k => (k, get_attribute_hint store p k))
    tableHint :=
      { path := p
        title := baseTitle store p
        longTitle := makeLongTitle (baseTitle store p.dropLast) (baseTitle store p)
        icon := declaredIcon r
        isShowMore := (r.forTable.bind (fun h => h.isShowMore)).getD true
        viewName := parse_view_name (r.forTable.bind (fun h => h.view))
        byColumn :=
          (completeKeyOrder ((r.forTable.map (fun h => h.keyorder)).getD []) (r.byColumn.map (fun e => e.1))).map
            (fun k => (k, get_column_hint store p k)) } }

/-- Modelled from the spec: a representative fragment of the raw hint
registry (`inventory_displayhints`), which is populated by plugin
registration outside this repository fragment.  The entries reproduce the
hints exercised by the shipped unit tests (registration paths, titles,
icons, keyorders, views, per-key hints) at reduced keyorder width
(spec.md §3, §6; test_display_hints.py). -/
def modelStore : RawHintStore :=
  [ (".", { title := some "Inventory" }),
    (".hardware.", { title := some "Hardware", icon := some "hardware" }),
    (".hardware.cpu.", { title := some "Processor", keyorder := ["arch", "max_speed"] }),
    (".hardware.cpu.arch", { title := some "CPU Architecture" }),
    (".hardware.cpu.max_speed", { title := some "Maximum Speed", paintName := some "inv_paint_hz" }),
    (".hardware.system.", { title := some "System", keyorder := ["product", "serial_number", "model_name"] }),
    (".hardware.system.product", { title := some "Product", isShowMore := some false }),
    (".hardware.storage.", { title := some "Storage" }),
    (".hardware.storage.disks.", { title := some "Block Devices", keyorder := ["size"] }),
    (".hardware.storage.disks.size", { title := some "Size", dataType := some "size" }),
    (".software.", { title := some "Software", icon := some "software" }),
    (".software.applications.", { title := some "Applications" }),
    (".software.applications.docker.", { title := some "Docker" }),
    (".software.applications.docker.images:",
      { title := some "Docker images", view := some "dockerimages", isShowMore := some false,
        keyorder := ["id", "creation", "size"] }),
    (".software.applications.docker.images:*.id", { title := some "ID" }),
    (".software.applications.docker.images:*.creation", { title := some "Creation" }),
    (".software.applications.docker.images:*.size", { title := some "Size", dataType := some "size" }),
    (".software.packages:",
      { title := some "Software packages", view := some "swpac",
        keyorder := ["package_version", "version"] }),
    (".software.packages:*.package_version", { title := some "Package Version", sortName := some "cmp_version" }),
    (".software.packages:*.version",
      { title := some "Version", sortName := some "cmp_version", filterName := some "FilterInvtableVersion" }),
    (".networking.", { title := some "Networking", icon := some "networking" }),
    (".networking.interfaces:",
      { title := some "Network interfaces", view := some "interface",
        keyorder := ["index", "oper_status"] }),
    (".networking.interfaces:*.index", { title := some "Index", dataType := some "number" }),
    (".networking.interfaces:*.oper_status",
      { title := some "Operational Status", paintName := some "inv_paint_if_oper_status" }) ]

/-- The per-path ignore-list of structurally-excluded keys used by the
keyorder consistency check, embedded from `_IGNORED_KEYS_BY_PATH` in
test_display_hints.py lines 52-64. -/
def ignoredKeysByPath (p : List String) : List String :=
  if p = ["hardware", "system"] then ["serial_number", "model_name"]
  else if p = ["hardware", "storage", "disks"] then
    ["drive_index", "bus", "serial", "local", "size", "product", "type", "vendor"]
  else []

/-- Remove the ignore-listed keys from a key list. -/
def minusKeys (xs ign : List String) : List String :=
  xs.filter (fun k => !decide (k ∈ ign))

/-- Whether two key lists contain the same set of keys. -/
def sameKeySet (xs ys : List String) : Bool :=
  xs.all (fun x => decide (x ∈ ys)) && ys.all (fun y => decide (y ∈ xs))

/-- Modelled from the spec: the keyorder consistency invariant — for every
path of the related-hints mapping, the set of keys declared in that path's
keyorder, minus the per-path ignore-list, exactly equals the set of keys
that have per-key raw hints under that path, for node attributes and for
table columns alike (spec.md §4.3; test_display_hints.py lines 67-111). -/
def relatedKeyOrdersConsistent (store : RawHintStore) : Bool :=
  (get_related_raw_hints store).all fun e =>
    let ign := ignoredKeysByPath e.1
    sameKeySet (minusKeys ((e.2.forNode.map (fun h => h.keyorder)).getD []) ign)
        (minusKeys (e.2.byKey.map (fun kv => kv.1)) ign)
      && sameKeySet (minusKeys ((e.2.forTable.map (fun h => h.keyorder)).getD []) ign)
        (minusKeys (e.2.byColumn.map (fun kv => kv.1)) ign)

/-- Whether every registered raw hint of a store declares a title. -/
def allHintsHaveTitle (store : RawHintStore) : Bool :=
  store.all (fun e => e.2.title.isSome)

/-- The keyorder declared by the raw table hint at a path (empty when no
table hint is registered). -/
def tableKeyorderOf (store : RawHintStore) (p : List String) : List String :=
  (((lookupRelated store p).forTable).map (fun h => h.keyorder)).getD []

/-- The keys that have per-key raw column hints at a path, in
registration order. -/
def referencedColumnKeysOf (store : RawHintStore) (p : List String) : List String :=
  ((lookupRelated store p).byColumn).map (fun e => e.1)

/-- The ordered keys of the resolved column-hint mapping at a path. -/
def resolvedColumnKeysOf (store : RawHintStore) (p : List String) : List String :=
  ((get_node_hint store p).tableHint.byColumn).map (fun e => e.1)

theorem filterFilter {α : Type} (p q : α → Bool) (l : List α) :
    (l.filter p).filter q = l.filter (fun a => p a && q a) := by
  induction l with
  | nil => rfl
  | cons x xs ih =>
    by_cases hp : p x <;> by_cases hq : q x <;>
      simp [List.filter_cons, hp, hq, ih]

theorem completeKeyOrder_eq (refs ko : List String) :
    completeKeyOrder ko refs =
      ko ++ dedupFirst (refs.filter (fun k => !decide (k ∈ ko))) := by
  induction refs generalizing ko with
  | nil => simp [completeKeyOrder, dedupFirst]
  | cons x xs ih =>
    by_cases hx : x ∈ ko
    · have h1 : completeKeyOrder ko (x :: xs) = completeKeyOrder ko xs := by
        simp [completeKeyOrder, List.foldl_cons, hx]
      rw [h1, ih]
      simp [List.filter_cons, hx]
    · have h1 : completeKeyOrder ko (x :: xs) = completeKeyOrder (ko ++ [x]) xs := by
        simp [completeKeyOrder, List.foldl_cons, hx]
      rw [h1, ih]
      have h2 : xs.filter (fun k => !decide (k ∈ ko ++ [x])) =
          (xs.filter (fun k => !decide (k ∈ ko))).filter (fun y => !decide (y = x)) := by
        rw [filterFilter]
        apply List.filter_congr
        intro a _
        by_cases ha : a ∈ ko <;> by_cases hax : a = x <;> simp [ha, hax]
      rw [h2]
      simp [List.filter_cons, hx, dedupFirst]

theorem assocFind_append {κ τ : Type} [DecidableEq κ] (l l' : List (κ × τ)) (k : κ) :
    assocFind (l ++ l') k = ((assocFind l k).orElse (fun _ => assocFind l' k)) := by
  induction l with
  | nil => simp [assocFind]
  | cons e es ih =>
    by_cases h : e.1 = k <;> simp [assocFind, h, ih]

theorem containsKey_ensureAt_of (m : RelMap) (p q : List String)
    (h : containsKey m q = true) : containsKey (ensureAt m p) q = true := by
  unfold ensureAt
  by_cases hc : containsKey m p
  · rw [if_pos hc]; exact h
  · rw [if_neg hc]
    unfold containsKey at h ⊢
    rw [assocFind_append]
    cases hfind : assocFind m q with
    | none => rw [hfind] at h; simp at h
    | some v => simp [Option.orElse, hfind]

theorem containsKey_ensureAt_self (m : RelMap) (p : List String) :
    containsKey (ensureAt m p) p = true := by
  unfold ensureAt
  by_cases hc : containsKey m p
  · rw [if_pos hc]; exact hc
  · rw [if_neg hc]
    unfold containsKey at hc ⊢
    rw [assocFind_append]
    cases hfind : assocFind m p with
    | none => simp [Option.orElse, hfind, assocFind]
    | some v => rw [hfind] at hc; simp at hc

theorem containsKey_setAt_of (m : RelMap) (p q : List String)
    (f : RelatedRawHints → RelatedRawHints) (h : containsKey m q = true) :
    containsKey (setAt m p f) q = true := by
  induction m with
  | nil => simp [containsKey, assocFind] at h
  | cons e es ih =>
    cases e with
    | mk ek ev =>
      by_cases hep : ek = p
      · by_cases heq : ek = q
        · subst hep
          subst heq
          simp [setAt, containsKey, assocFind]
        · subst hep
          simp only [setAt, containsKey, assocFind, if_pos rfl, if_neg heq] at h ⊢
          exact h
      · by_cases heq : ek = q
        · subst heq
          simp [setAt, containsKey, assocFind, hep]
        · simp only [setAt, containsKey, assocFind, if_neg hep, if_neg heq] at h ⊢
          exact ih h

theorem containsKey_foldl_ensureAt (is : List Nat) (p : List String) (m : RelMap)
    (q : List String) (h : containsKey m q = true) :
    containsKey (is.foldl (fun m i => ensureAt m (p.take i)) m) q = true := by
  induction is generalizing m with
  | nil => exact h
  | cons j js ih => exact ih _ (containsKey_ensureAt_of _ _ _ h)

theorem containsKey_foldl_ensureAt_mem (is : List Nat) (p : List String) (i : Nat) :
    ∀ m : RelMap, i ∈ is →
      containsKey (is.foldl (fun m i => ensureAt m (p.take i)) m) (p.take i) = true := by
  induction is with
  | nil =>
    intro m hi
    cases hi
  | cons j js ih =>
    intro m hi
    rcases List.mem_cons.mp hi with heq | hmem
    · subst heq
      exact containsKey_foldl_ensureAt js p _ _ (containsKey_ensureAt_self m (p.take i))
    · exact ih _ hmem

theorem containsKey_addRawHint_of (m : RelMap) (e : String × RawHint) (q : List String)
    (h : containsKey m q = true) : containsKey (addRawHint m e) q = true := by
  unfold addRawHint ensureAll
  exact containsKey_setAt_of _ _ _ _ (containsKey_foldl_ensureAt _ _ _ _ h)

theorem containsKey_addRawHint_take (m : RelMap) (e : String × RawHint) (i : Nat)
    (hi : i < (InventoryPath.parse e.1).path.length) :
    containsKey (addRawHint m e) ((InventoryPath.parse e.1).path.take i) = true := by
  unfold addRawHint ensureAll
  exact containsKey_setAt_of _ _ _ _
    (containsKey_foldl_ensureAt_mem _ _ _ _ (List.mem_range.mpr hi))

theorem containsKey_foldl_addRawHint (l : List (String × RawHint)) (m : RelMap)
    (q : List String) (h : containsKey m q = true) :
    containsKey (l.foldl addRawHint m) q = true := by
  induction l generalizing m with
  | nil => exact h
  | cons e es ih => exact ih _ (containsKey_addRawHint_of _ _ _ h)

theorem containsKey_related_take (rawPath : String) (h : RawHint) (i : Nat)
    (hi : i < (InventoryPath.parse rawPath).path.length) :
    ∀ (l : List (String × RawHint)) (m : RelMap), (rawPath, h) ∈ l →
      containsKey (l.foldl addRawHint m) ((InventoryPath.parse rawPath).path.take i) = true := by
  intro l
  induction l with
  | nil =>
    intro m hmem
    cases hmem
  | cons e es ih =>
    intro m hmem
    rcases List.mem_cons.mp hmem with heq | hmem'
    · subst heq
      exact containsKey_foldl_addRawHint es _ _ (containsKey_addRawHint_take m _ i hi)
    · exact ih _ hmem' 

theorem lookupRelated_of_not_contains (store : RawHintStore) (p : List String)
    (h : containsKey (get_related_raw_hints store) p = false) :
    lookupRelated store p = emptyRelated := by
  unfold containsKey at h
  unfold lookupRelated
  cases hfind : assocFind (get_related_raw_hints store) p with
  | none => rfl
  | some v =>
    rw [hfind] at h
    simp at h

/-- Claim C1 (counterexample): the resolved long title of a non-root path
is not in general the parent's long title joined with the own short title.
At `("hardware",)` the long title is "Hardware" while the root's long
title is "Inventory Tree"; at `("path", "to", "node")` the long title is
"To ➤ Node" while the parent's long title is "Path ➤ To" (matching
test_display_hints.py lines 170-189 and 273-292). -/
theorem claim_C1_counterexample :
    (get_node_hint modelStore ["hardware"]).longTitle ≠
        (get_node_hint modelStore []).longTitle ++ " ➤ " ++
          (get_node_hint modelStore ["hardware"]).shortTitle ∧
      (get_node_hint modelStore ["path", "to", "node"]).longTitle ≠
        (get_node_hint modelStore ["path", "to"]).longTitle ++ " ➤ " ++
          (get_node_hint modelStore ["path", "to", "node"]).shortTitle := by
  decide

/-- Claim C1 (amended): for every path of depth at least two whose parent
resolves to a nonempty title, the resolved long title equals the parent's
(short) title — not the parent's long title — followed by the separator
" ➤ " and the own short title; a depth-one path's long title is its short
title alone (the root label is not prepended). -/
theorem claim_C1_amended (store : RawHintStore) (p : List String)
    (h2 : 2 ≤ p.length) (h : baseTitle store p.dropLast ≠ "") :
    (get_node_hint store p).longTitle =
      (get_node_hint store p.dropLast).shortTitle ++ " ➤ " ++
        (get_node_hint store p).shortTitle := by
  have hpne : p ≠ [] := by
    intro hcon
    rw [hcon] at h2
    simp at h2
  have hdne : p.dropLast ≠ [] := by
    have hlen : 1 ≤ p.dropLast.length := by
      rw [List.length_dropLast]
      omega
    intro hcon
    rw [hcon] at hlen
    simp at hlen
  show nodeLongTitle store p = nodeTitle store p.dropLast ++ " ➤ " ++ nodeTitle store p
  unfold nodeLongTitle makeLongTitle nodeTitle
  rw [if_neg h, if_neg hdne]

/-- Witness for the amended claim C1 at the registered depth-two path
`("hardware", "cpu")` of the modelled store. -/
theorem claim_C1_witness :
    2 ≤ (["hardware", "cpu"] : List String).length ∧
      baseTitle modelStore (["hardware", "cpu"] : List String).dropLast ≠ "" ∧
      (get_node_hint modelStore ["hardware", "cpu"]).longTitle =
        (get_node_hint modelStore ["hardware"]).shortTitle ++ " ➤ " ++
          (get_node_hint modelStore ["hardware", "cpu"]).shortTitle :=
  ⟨by decide, by decide, claim_C1_amended modelStore ["hardware", "cpu"] (by decide) (by decide)⟩

/-- Claim C2: for every path of the related-hints mapping built from the
modelled raw hint store, the set of keys declared in the path's keyorder,
minus the per-path ignore-list, exactly equals the set of keys that have
per-key raw hints registered under that path — for node attributes and
for table columns alike. -/
theorem claim_C2 : relatedKeyOrdersConsistent modelStore = true := by decide

/-- Claim C3: for every path whose ignore-list is empty (which covers
every table path: the ignore-list only names attribute paths), the
ordered keys of the resolved column-hint mapping equal the declared
keyorder (minus the — empty — ignore-list) in declared order, with the
referenced-but-undeclared column keys appended afterward in first-seen
order with duplicates removed. -/
theorem claim_C3 (store : RawHintStore) (p : List String)
    (hign : ignoredKeysByPath p = []) :
    resolvedColumnKeysOf store p =
      minusKeys (tableKeyorderOf store p) (ignoredKeysByPath p) ++
        dedupFirst ((referencedColumnKeysOf store p).filter
          (fun k => !decide (k ∈ tableKeyorderOf store p))) := by
  rw [hign]
  have hminus : minusKeys (tableKeyorderOf store p) [] = tableKeyorderOf store p := by
    unfold minusKeys
    simp
  rw [hminus]
  show ((completeKeyOrder _ _).map (fun k => (k, get_column_hint store p k))).map (fun e => e.1) = _
  rw [List.map_map]
  have hid : ((fun e => e.1) ∘ fun k => (k, get_column_hint store p k)) = fun k : String => k := rfl
  rw [hid, List.map_id_fun']
  exact completeKeyOrder_eq _ _

/-- Witness for claim C3 at the table path `("networking", "interfaces")`
of the modelled store. -/
theorem claim_C3_witness :
    ignoredKeysByPath ["networking", "interfaces"] = [] ∧
      resolvedColumnKeysOf modelStore ["networking", "interfaces"] =
        minusKeys (tableKeyorderOf modelStore ["networking", "interfaces"])
            (ignoredKeysByPath ["networking", "interfaces"]) ++
          dedupFirst ((referencedColumnKeysOf modelStore ["networking", "interfaces"]).filter
            (fun k => !decide (k ∈ tableKeyorderOf modelStore ["networking", "interfaces"]))) :=
  ⟨by decide, claim_C3 modelStore ["networking", "interfaces"] (by decide)⟩

/-- Claim C4: for every raw hint registered in a store, every strict
prefix of its parsed path has an entry in the mapping produced by
`get_related_raw_hints`, and every such prefix resolves via
`get_node_hint` (which is total in this embedding) to a node hint
carrying exactly that prefix as its path. -/
theorem claim_C4 (store : RawHintStore) (rawPath : String) (h : RawHint) (i : Nat)
    (hmem : (rawPath, h) ∈ store)
    (hi : i < (InventoryPath.parse rawPath).path.length) :
    containsKey (get_related_raw_hints store)
        ((InventoryPath.parse rawPath).path.take i) = true ∧
      (get_node_hint store ((InventoryPath.parse rawPath).path.take i)).path =
        (InventoryPath.parse rawPath).path.take i :=
  ⟨containsKey_related_take rawPath h i hi store [] hmem, rfl⟩

/-- Witness for claim C4: the column hint registered at
`.software.applications.docker.images:*.id` forces entries for the strict
prefix `("software", "applications")` of its path. -/
theorem claim_C4_witness :
    ((".software.applications.docker.images:*.id", ({ title := some "ID" } : RawHint)) ∈ modelStore) ∧
      2 < (InventoryPath.parse ".software.applications.docker.images:*.id").path.length ∧
      containsKey (get_related_raw_hints modelStore)
          ((InventoryPath.parse ".software.applications.docker.images:*.id").path.take 2) = true ∧
      (get_node_hint modelStore
            ((InventoryPath.parse ".software.applications.docker.images:*.id").path.take 2)).path =
        (InventoryPath.parse ".software.applications.docker.images:*.id").path.take 2 := by
  have h := claim_C4 modelStore ".software.applications.docker.images:*.id"
    { title := some "ID" } 2 (by decide) (by decide)
  exact ⟨by decide, by decide, h.1, h.2⟩

/-- Claim C5: `InventoryPath.parse ".foo.bar."` yields path
`("foo", "bar")` with node context; `InventoryPath.parse ".foo.bar:"`
yields path `("foo", "bar")` with table context; and
`InventoryPath.parse ".software.packages:*.package_version"` yields path
`("software", "packages")` and key `"package_version"`, the `*` segment
having been removed from the path. -/
theorem claim_C5 :
    (InventoryPath.parse ".foo.bar.").path = ["foo", "bar"] ∧
      (InventoryPath.parse ".foo.bar.").source = TreeSource.node ∧
      (InventoryPath.parse ".foo.bar:").path = ["foo", "bar"] ∧
      (InventoryPath.parse ".foo.bar:").source = TreeSource.table ∧
      (InventoryPath.parse ".software.packages:*.package_version").path =
        ["software", "packages"] ∧
      (InventoryPath.parse ".software.packages:*.package_version").key =
        some "package_version" := by
  decide

/-- Claim C6: for an arbitrary context argument, the decorated generic
comparator returns 0 on two absent values, -1 when only the first value
is absent, 1 when only the second is absent, and compares present values
by the standard relational order — absent values sort first. -/
theorem claim_C6 {α : Type} (ctx : α) :
    decorate_sort_function cmp_inv_generic none none ctx = 0 ∧
      decorate_sort_function cmp_inv_generic none (some 0) ctx = -1 ∧
      decorate_sort_function cmp_inv_generic (some 0) none ctx = 1 ∧
      decorate_sort_function cmp_inv_generic (some 0) (some 0) ctx = 0 ∧
      decorate_sort_function cmp_inv_generic (some 1) (some 0) ctx = 1 ∧
      decorate_sort_function cmp_inv_generic (some 0) (some 1) ctx = -1 := by
  refine ⟨rfl, rfl, rfl, ?_, ?_, ?_⟩ <;>
    simp [decorate_sort_function, cmp_inv_generic]

/-- Witness for claim C6 at the concrete context value `42`. -/
theorem claim_C6_witness :
    decorate_sort_function cmp_inv_generic none none (42 : Nat) = 0 ∧
      decorate_sort_function cmp_inv_generic none (some 0) (42 : Nat) = -1 ∧
      decorate_sort_function cmp_inv_generic (some 0) none (42 : Nat) = 1 ∧
      decorate_sort_function cmp_inv_generic (some 0) (some 0) (42 : Nat) = 0 ∧
      decorate_sort_function cmp_inv_generic (some 1) (some 0) (42 : Nat) = 1 ∧
      decorate_sort_function cmp_inv_generic (some 0) (some 1) (42 : Nat) = -1 :=
  claim_C6 42

/-- Claim C7: `_parse_view_name` maps absent and empty input to the empty
string, strips a trailing "_of_host" suffix, and ensures the "inv" prefix
is present exactly once. -/
theorem claim_C7 :
    parse_view_name none = "" ∧
      parse_view_name (some "") = "" ∧
      parse_view_name (some "viewname") = "invviewname" ∧
      parse_view_name (some "invviewname") = "invviewname" ∧
      parse_view_name (some "viewname_of_host") = "invviewname" ∧
      parse_view_name (some "invviewname_of_host") = "invviewname" := by
  refine ⟨rfl, by decide, by decide, by decide, by decide, by decide⟩

/-- Claim C8: for every nonempty path with no entry in the related-hints
mapping (hence no registered raw hint) and every key, resolution still
succeeds and returns derived defaults — the node title is the humanized
last path component, per-key titles are the humanized key, `data_type`
defaults to "str", the paint function is the generic one, the sort
function is the generic comparator (always consumed under
`decorate_sort_function`), and the filter class is the generic text
filter. -/
theorem claim_C8 (store : RawHintStore) (p : List String) (k : String)
    (hp : containsKey (get_related_raw_hints store) p = false) (hne : p ≠ []) :
    (get_node_hint store p).title = humanizeTitle (p.getLast?.getD "") ∧
      (get_attribute_hint store p k).title = humanizeTitle k ∧
      (get_attribute_hint store p k).dataType = "str" ∧
      (get_attribute_hint store p k).paintFunction = "inv_paint_generic" ∧
      (get_attribute_hint store p k).sortFunction = "_cmp_inv_generic" ∧
      (get_attribute_hint store p k).filterClass = "FilterInvtableText" ∧
      (get_column_hint store p k).title = humanizeTitle k ∧
      (get_column_hint store p k).paintFunction = "inv_paint_generic" ∧
      (get_column_hint store p k).sortFunction = "_cmp_inv_generic" ∧
      (get_column_hint store p k).filterClass = "FilterInvtableText" := by
  have hrel := lookupRelated_of_not_contains store p hp
  unfold get_node_hint get_attribute_hint get_column_hint nodeTitle baseTitle
  rw [hrel]
  simp only [emptyRelated]
  simp [declaredTitle, assocFind, paintOfDataType, hne]

/-- Witness for claim C8 at the unregistered path
`("path", "to", "node")` and key `"key"` of the modelled store. -/
theorem claim_C8_witness :
    containsKey (get_related_raw_hints modelStore) ["path", "to", "node"] = false ∧
      (get_node_hint modelStore ["path", "to", "node"]).title = humanizeTitle "node" ∧
      (get_attribute_hint modelStore ["path", "to", "node"] "key").title = humanizeTitle "key" ∧
      (get_attribute_hint modelStore ["path", "to", "node"] "key").dataType = "str" ∧
      (get_attribute_hint modelStore ["path", "to", "node"] "key").paintFunction =
        "inv_paint_generic" ∧
      (get_attribute_hint modelStore ["path", "to", "node"] "key").sortFunction =
        "_cmp_inv_generic" ∧
      (get_attribute_hint modelStore ["path", "to", "node"] "key").filterClass =
        "FilterInvtableText" ∧
      (get_column_hint modelStore ["path", "to", "node"] "key").title = humanizeTitle "key" ∧
      (get_column_hint modelStore ["path", "to", "node"] "key").paintFunction =
        "inv_paint_generic" ∧
      (get_column_hint modelStore ["path", "to", "node"] "key").sortFunction =
        "_cmp_inv_generic" ∧
      (get_column_hint modelStore ["path", "to", "node"] "key").filterClass =
        "FilterInvtableText" := by
  have h := claim_C8 modelStore ["path", "to", "node"] "key" (by decide) (by decide)
  exact ⟨by decide, h.1, h.2.1, h.2.2.1, h.2.2.2.1, h.2.2.2.2.1, h.2.2.2.2.2.1,
    h.2.2.2.2.2.2.1, h.2.2.2.2.2.2.2.1, h.2.2.2.2.2.2.2.2.1, h.2.2.2.2.2.2.2.2.2⟩

/-- Claim C9: for every raw hint store, `get_node_hint` applied to the
empty (root) path returns a node hint titled "Inventory Tree" whose long
title is also "Inventory Tree". -/
theorem claim_C9 (store : RawHintStore) :
    (get_node_hint store []).title = "Inventory Tree" ∧
      (get_node_hint store []).longTitle = "Inventory Tree" := by
  constructor
  · rfl
  · rfl

/-- Witness for claim C9 at the modelled store. -/
theorem claim_C9_witness :
    (get_node_hint modelStore []).title = "Inventory Tree" ∧
      (get_node_hint modelStore []).longTitle = "Inventory Tree" :=
  claim_C9 modelStore

/-- Claim C10: every raw hint registered in the modelled inventory
display-hint store contains a title entry, although the field is declared
optional in the data model. -/
theorem claim_C10 : allHintsHaveTitle modelStore = true := by decide

/-
Validation of the embedding against the concrete expectations of the
shipped unit tests (test_display_hints.py).
-/

example : InventoryPath.parse ".foo.bar." = ⟨["foo", "bar"], .node, none⟩ := by decide

example : InventoryPath.parse ".foo.bar:" = ⟨["foo", "bar"], .table, none⟩ := by decide

example :
    InventoryPath.parse ".software.packages:*.package_version" =
      ⟨["software", "packages"], .table, some "package_version"⟩ := by decide

example : InventoryPath.parse ".hardware.cpu.arch" = ⟨["hardware", "cpu"], .attributes, some "arch"⟩ := by
  decide

example : humanizeTitle "package_version" = "Package Version" := by decide

example : humanizeTitle "node" = "Node" := by decide

example : parse_view_name (some "viewname_of_host") = "invviewname" := by decide

example : (get_node_hint modelStore []).title = "Inventory Tree" := by decide

example : (get_node_hint modelStore []).longTitle = "Inventory Tree" := by decide

example : (get_node_hint modelStore []).tableHint.title = "" := by decide

example : (get_node_hint modelStore ["hardware"]).longTitle = "Hardware" := by decide

example : (get_node_hint modelStore ["hardware", "cpu"]).longTitle = "Hardware ➤ Processor" := by decide

example :
    (get_node_hint modelStore ["software", "applications", "docker", "images"]).longTitle =
      "Docker ➤ Docker images" := by decide

example : (get_node_hint modelStore ["path", "to", "node"]).longTitle = "To ➤ Node" := by decide

example :
    (get_node_hint modelStore ["software", "applications", "docker", "images"]).tableHint.viewName =
      "invdockerimages" := by decide

example :
    ((get_node_hint modelStore ["software", "applications", "docker", "images"]).tableHint.byColumn).map
        (fun e => e.1) = ["id", "creation", "size"] := by decide

example :
    (get_attribute_hint modelStore ["hardware", "storage", "disks"] "size").longTitle =
      "Block Devices ➤ Size" := by decide

example :
    (get_attribute_hint modelStore ["hardware", "storage", "disks"] "size").paintFunction =
      "inv_paint_size" := by decide

example :
    (get_column_hint modelStore ["software", "packages"] "package_version").longTitle =
      "Software packages ➤ Package Version" := by decide

